import Mathlib

/-!
Verification of the TypeScript-interface-to-wasm-shim pipeline in
`crates/cli/src/shim.rs`.

The file embeds, as executable Lean definitions:
* the subset of the `swc_ecma_ast` syntax tree that the extractor consults
  (payloads the extractor never inspects are collapsed to payload-free
  constructors);
* the Interface Extractor (`parse_module_decl`, `parse_module`);
* the Shim Emitter (`generate_export_wasm_shim`), producing the structured
  wasm module (Type / Import / Function / Export / Code sections);
* a byte-level encoder for that structure (the `wasm_encoder` crate is an
  out-of-scope collaborator, so the encoder is modelled from the target
  binary format the spec names);
* the pipeline `create_shims`, from parsed syntax tree to output bytes
  (file input and the swc front-end parser are out-of-scope collaborators).

Theorems about these definitions follow the definitions.
-/

namespace Shim

/-- Model of `swc_ecma_ast::TsModuleName`: a namespace head is either an
identifier (`namespace main`) or a string literal (`declare module "main"`). -/
inductive TsModuleName
  | ident (sym : String)
  | str (value : String)
deriving DecidableEq

/-- Model of `swc_ecma_ast::TsEntityName`: the name part of a type
reference, either a bare identifier or a qualified name `A.B`. -/
inductive TsEntityName
  | tsQualifiedName (left : TsEntityName) (right : String)
  | ident (sym : String)
deriving DecidableEq

/-- Model of `swc_ecma_ast::TsTypeRef`: a named type reference with an
optional generic-argument list. The extractor never inspects the argument
list itself, so it is collapsed to `Option Unit`. -/
structure TsTypeRef where
  type_name : TsEntityName
  type_params : Option Unit
deriving DecidableEq

/-- Model of `swc_ecma_ast::TsType`, keeping the one variant the extractor
destructures (`TsTypeRef`) and collapsing the variants it only rejects
(unions, keyword types, structural type literals, function types) to
payload-free constructors, since their payloads are never consulted. -/
inductive TsType
  | tsTypeRef (r : TsTypeRef)
  | tsKeywordType (kind : String)
  | tsUnionOrIntersectionType
  | tsTypeLit
  | tsFnOrConstructorType
deriving DecidableEq

/-- Model of `swc_ecma_ast::TsTypeAnn`: a type annotation wrapping a type. -/
structure TsTypeAnn where
  type_ann : TsType
deriving DecidableEq

/-- Model of `swc_ecma_ast::Param`: a declared function parameter. The
extractor only counts parameters and never reads the pattern, so the
pattern is kept as its source text. -/
structure TsFnParam where
  pat : String
deriving DecidableEq

/-- Model of `swc_ecma_ast::Function`: the fields of a function the
extractor consults (its parameter list and return-type annotation). -/
structure TsFunction where
  params : List TsFnParam
  return_type : Option TsTypeAnn
deriving DecidableEq

/-- Model of `swc_ecma_ast::FnDecl`: `ident` is the declared name
(`fndecl.ident.sym`). -/
structure FnDecl where
  ident : String
  function : TsFunction
deriving DecidableEq

mutual
/-- Model of `swc_ecma_ast::Decl`. The extractor destructures only the
`Fn` and `TsModule` variants; other declaration kinds are collapsed to
payload-free constructors. -/
inductive Decl
  | clazz
  | fn (f : FnDecl)
  | var
  | tsInterface
  | tsTypeAlias
  | tsEnum
  | tsModule (m : TsModuleDecl)

/-- Model of `swc_ecma_ast::TsModuleDecl`: a `namespace` / `module`
declaration with its name and optional body. -/
inductive TsModuleDecl
  | mk (id : TsModuleName) (body : Option TsNamespaceBody)

/-- Model of `swc_ecma_ast::TsNamespaceBody`: either a block of module
items or a nested single-declaration namespace body. -/
inductive TsNamespaceBody
  | tsModuleBlock (body : List ModuleItem)
  | tsNamespaceDecl

/-- Model of `swc_ecma_ast::ModuleDecl`. The extractor destructures only
`ExportDecl`; the remaining module-level declaration kinds (imports,
re-exports, default exports, ...) are collapsed to payload-free
constructors. -/
inductive ModuleDecl
  | importDecl
  | exportDecl (decl : Decl)
  | exportNamed
  | exportDefaultDecl
  | exportDefaultExpr
  | exportAll
  | tsImportEquals
  | tsExportAssignment
  | tsNamespaceExport

/-- Model of `swc_ecma_ast::Stmt`. The extractor destructures only
`Stmt::Decl`; the many other statement kinds (expression statements,
blocks, control flow, ...) are collapsed. -/
inductive Stmt
  | block
  | empty
  | expr
  | decl (d : Decl)
  | other

/-- Model of `swc_ecma_ast::ModuleItem`: a top-level or namespace-body
item is a module declaration or a statement. -/
inductive ModuleItem
  | moduleDecl (d : ModuleDecl)
  | stmt (s : Stmt)
end

/-- Model of `swc_ecma_ast::Module`: the parsed source file. -/
structure Module where
  body : List ModuleItem

/-- Accessor for the namespace name, mirroring `submod.id`. -/
def TsModuleDecl.id : TsModuleDecl → TsModuleName
  | .mk i _ => i

/-- Accessor for the namespace body, mirroring `tsmod.body`. -/
def TsModuleDecl.body : TsModuleDecl → Option TsNamespaceBody
  | .mk _ b => b

/-- Variant accessor `TsModuleName::as_str`: yields the string only for a
string-literal module name, never for an identifier name. -/
def TsModuleName.as_str : TsModuleName → Option String
  | .str v => some v
  | .ident _ => none

/-- Variant accessor `Decl::as_fn_decl`. -/
def Decl.as_fn_decl : Decl → Option FnDecl
  | .fn f => some f
  | _ => none

/-- Variant accessor `TsType::as_ts_type_ref`. -/
def TsType.as_ts_type_ref : TsType → Option TsTypeRef
  | .tsTypeRef r => some r
  | _ => none

/-- Variant accessor `TsEntityName::as_ident`, yielding the symbol. -/
def TsEntityName.as_ident : TsEntityName → Option String
  | .ident s => some s
  | _ => none

/-- Model of the `Param` struct of shim.rs. -/
structure Param where
  name : String
  ptype : String
deriving DecidableEq

/-- Model of the `Signature` struct of shim.rs. -/
structure Signature where
  name : String
  params : List Param
  results : List Param
deriving DecidableEq

/-- Model of the `Interface` struct of shim.rs. -/
structure Interface where
  name : String
  functions : List Signature
deriving DecidableEq

/-- Model of `anyhow`'s `Option::context`: turn `none` into the given
error, mirroring `.context(msg)?`. -/
def context {α : Type} (o : Option α) (msg : String) : Except String α :=
  match o with
  | some a => Except.ok a
  | none => Except.error msg

/-- The signature built for one exported function declaration inside the
`"main"` block: the declared name, the parameters each mapped to the fixed
placeholder, and the single result taken from the return-type annotation,
which must be present (`context("Missing return type")`) and must be a
type reference whose name is a bare identifier (both other failures are
`context("Illegal return type")`). -/
def parse_fn_signature (fndecl : FnDecl) : Except String Signature := do
  let name := fndecl.ident
  let params := fndecl.function.params.map (fun _ => Param.mk ("c") ("I32"))
  let return_type ← context fndecl.function.return_type ("Missing return type")
  let tref ← context return_type.type_ann.as_ts_type_ref ("Illegal return type")
  let sym ← context tref.type_name.as_ident ("Illegal return type")
  let results := [Param.mk ("result") sym]
  Except.ok (Signature.mk name params results)

/-- The loop of `parse_module_decl` over the items of the `"main"` module
block: an `ExportDecl` of a function declaration contributes one
`Signature`; an `ExportDecl` of anything else contributes nothing (the
inner `if let` has no else branch); any item that is not an `ExportDecl`
aborts with an error (`bail!`). -/
def parse_block_items : List ModuleItem → Except String (List Signature)
  | [] => Except.ok []
  | ModuleItem.moduleDecl (ModuleDecl.exportDecl e) :: rest =>
      match e.as_fn_decl with
      | some fndecl => do
          let signature ← parse_fn_signature fndecl
          let sigs ← parse_block_items rest
          Except.ok (signature :: sigs)
      | none => parse_block_items rest
  | _ :: _ => Except.error ("Do not know what to do with non export on main module")

/-- The loop `for block in &tsmod.body` of `parse_module_decl`: the
optional body is visited if present, and only a module block is entered
(`as_ts_module_block` yields nothing on a nested single-declaration
body), otherwise the signature list stays empty. -/
def parse_namespace_body : Option TsNamespaceBody → Except String (List Signature)
  | some (TsNamespaceBody.tsModuleBlock items) => parse_block_items items
  | _ => Except.ok []

/-- Model of `parse_module_decl` of shim.rs: collect the signatures of
the namespace body and wrap them as an `Interface` always named
`"main"`. -/
def parse_module_decl (tsmod : TsModuleDecl) : Except String Interface := do
  let signatures ← parse_namespace_body tsmod.body
  Except.ok (Interface.mk ("main") signatures)

/-- The loop of `parse_module` over the top-level items: a statement that
is a `TsModule` declaration is inspected — its name must be the string
literal `"main"` (an identifier name yields `None` from `as_str` and is
rejected like any other name); every other top-level item falls through
the `if let` with no else branch and is skipped. -/
def parse_module_items : List ModuleItem → Except String (List Interface)
  | [] => Except.ok []
  | ModuleItem.stmt (Stmt.decl (Decl.tsModule submod)) :: rest =>
      match submod.id.as_str with
      | some ("main") => do
          let i ← parse_module_decl submod
          let is ← parse_module_items rest
          Except.ok (i :: is)
      | _ => Except.error ("Could not parse module with name")
  | _ :: rest => parse_module_items rest

/-- Model of `parse_module` of shim.rs. -/
def parse_module (module : Module) : Except String (List Interface) :=
  parse_module_items module.body

/-- Model of `wasm_encoder::ValType` (only `I32` is used). -/
inductive ValType
  | i32
deriving DecidableEq

/-- A type-section entry: parameter and result value types. -/
structure FuncType where
  params : List ValType
  results : List ValType
deriving DecidableEq

/-- An import-section entry: module label, field label, and the function
type index (`EntityType::Function`). -/
structure WasmImport where
  module : String
  field : String
  ty : Nat
deriving DecidableEq

/-- Model of `wasm_encoder::ExportKind` (only `Func` is used). -/
inductive ExportKind
  | func
deriving DecidableEq

/-- An export-section entry: exported name, kind, and function index. -/
structure WasmExport where
  name : String
  kind : ExportKind
  index : Nat
deriving DecidableEq

/-- Model of `wasm_encoder::Instruction` restricted to the three
instructions emitted; `endOp` is the `End` body terminator. -/
inductive Instruction
  | i32Const (v : Int)
  | call (f : Nat)
  | endOp
deriving DecidableEq

/-- A code-section entry (`wasm_encoder::Function`): local declarations
(count and type) and the instruction sequence. -/
structure Func where
  locals : List (Nat × ValType)
  instructions : List Instruction
deriving DecidableEq

/-- The structured output module: the five sections in their required
order (Type, Import, Function, Export, Code). -/
structure WasmModule where
  types : List FuncType
  imports : List WasmImport
  functions : List Nat
  exports : List WasmExport
  codes : List Func
deriving DecidableEq

/-- Lexicographic (non-strict) order on codepoint sequences, mirroring
Rust `Ord` on `String` (byte-lexicographic on UTF-8, which coincides with
codepoint-lexicographic order). -/
def chars_le : List Char → List Char → Bool
  | [], _ => true
  | _ :: _, [] => false
  | a :: as, b :: bs =>
      if a.toNat < b.toNat then true
      else if b.toNat < a.toNat then false
      else chars_le as bs

/-- Lexicographic strict order on codepoint sequences. -/
def chars_lt : List Char → List Char → Bool
  | [], [] => false
  | [], _ :: _ => true
  | _ :: _, [] => false
  | a :: as, b :: bs =>
      if a.toNat < b.toNat then true
      else if b.toNat < a.toNat then false
      else chars_lt as bs

/-- Byte/codepoint order on strings, mirroring `a.name.cmp(&b.name)`
yielding `Less` or `Equal`. -/
def str_le (a b : String) : Bool := chars_le a.data b.data

/-- Strict byte/codepoint order on strings. -/
def str_lt (a b : String) : Bool := chars_lt a.data b.data

/-- The comparison `|a, b| a.name.cmp(&b.name)` passed to `sort_by`. -/
def sig_le (a b : Signature) : Prop := str_le a.name b.name = true

instance : DecidableRel sig_le :=
  fun a b => inferInstanceAs (Decidable (str_le a.name b.name = true))

/-- Model of `export_functions.sort_by(|a, b| a.name.cmp(&b.name))`.
Rust `sort_by` is a stable sort, and any two stable sorts with the same
comparison agree pointwise, so the stable `List.insertionSort` models it
exactly. -/
def sort_by_name (fns : List Signature) : List Signature :=
  List.insertionSort sig_le fns

/-- The export-section loop of `generate_export_wasm_shim`: one entry per
signature, bound to consecutive function indices starting from the given
counter (`func_index`, initially 1 because index 0 is the import). -/
def make_exports : List Signature → Nat → List WasmExport
  | [], _ => []
  | f :: rest, func_index =>
      WasmExport.mk f.name ExportKind.func func_index :: make_exports rest (func_index + 1)

/-- The code-section loop of `generate_export_wasm_shim`: one thunk per
signature; the thunk at counter `export_idx` (initially 0) pushes that
counter as an `i32` constant, calls import index 0, and terminates. -/
def make_codes : List Signature → Int → List Func
  | [], _ => []
  | _ :: rest, export_idx =>
      Func.mk [] [Instruction.i32Const export_idx, Instruction.call 0, Instruction.endOp]
        :: make_codes rest (export_idx + 1)

/-- Model of `generate_export_wasm_shim` of shim.rs, producing the
structured module (byte serialization and the output-file write are
split into `encode_module` below and the out-of-scope file sink). -/
def generate_export_wasm_shim (exports : Interface) : WasmModule :=
  let types := [FuncType.mk [ValType.i32] [ValType.i32], FuncType.mk [] [ValType.i32]]
  let import_sec := [WasmImport.mk ("coremod") ("__invoke") 0]
  let type_index : Nat := 1
  let functions := exports.functions.map (fun _ => type_index)
  let export_functions := sort_by_name exports.functions
  let export_sec := make_exports export_functions 1
  let codes := make_codes exports.functions 0
  WasmModule.mk types import_sec functions export_sec codes

/-- Modelled from the spec: low-level serialization of standard
binary-module primitives is an out-of-scope collaborator (the
`wasm_encoder` crate); unsigned LEB128, per the target binary format. -/
def uleb128 (n : Nat) : List Nat :=
  if h : n < 128 then [n] else (n % 128 + 128) :: uleb128 (n / 128)
decreasing_by exact Nat.div_lt_self (by omega) (by omega)

/-- Modelled from the spec: signed LEB128 worker; the fuel bounds the
byte count (ten bytes cover every 32-bit constant with room to spare). -/
def sleb128_aux : Nat → Int → List Nat
  | 0, _ => []
  | fuel + 1, n =>
      let byte := (n % 128).toNat
      let rest := (n - n % 128) / 128
      if (rest = 0 ∧ byte < 64) ∨ (rest = -1 ∧ 64 ≤ byte) then [byte]
      else (byte + 128) :: sleb128_aux fuel rest

/-- Modelled from the spec: signed LEB128, per the target binary format. -/
def sleb128 (n : Int) : List Nat := sleb128_aux 10 n

/-- Modelled from the spec: a length-prefixed UTF-8 name. -/
def encode_name (s : String) : List Nat :=
  let bytes := s.toUTF8.toList.map (fun b => b.toNat)
  uleb128 bytes.length ++ bytes

/-- Modelled from the spec: value-type encoding (`i32` is 0x7F). -/
def encode_valtype : ValType → List Nat
  | ValType.i32 => [0x7F]

/-- Modelled from the spec: function-type encoding. -/
def encode_functype (t : FuncType) : List Nat :=
  0x60 :: (uleb128 t.params.length ++ (t.params.map encode_valtype).flatten
    ++ uleb128 t.results.length ++ (t.results.map encode_valtype).flatten)

/-- Modelled from the spec: a section is its id byte, the byte length of
its contents, and the contents (entry count followed by the entries). -/
def encode_section (id : Nat) (count : Nat) (payload : List Nat) : List Nat :=
  let contents := uleb128 count ++ payload
  id :: (uleb128 contents.length ++ contents)

/-- Modelled from the spec: an import entry (function kind is 0x00). -/
def encode_import (i : WasmImport) : List Nat :=
  encode_name i.module ++ encode_name i.field ++ 0x00 :: uleb128 i.ty

/-- Modelled from the spec: an export entry (function kind is 0x00). -/
def encode_export (e : WasmExport) : List Nat :=
  encode_name e.name ++ 0x00 :: uleb128 e.index

/-- Modelled from the spec: instruction opcodes for the three emitted
instructions. -/
def encode_instruction : Instruction → List Nat
  | Instruction.i32Const v => 0x41 :: sleb128 v
  | Instruction.call f => 0x10 :: uleb128 f
  | Instruction.endOp => [0x0B]

/-- Modelled from the spec: a code entry is the byte length of the body,
then the local declarations, then the instructions. -/
def encode_func (f : Func) : List Nat :=
  let locals := uleb128 f.locals.length
    ++ (f.locals.map (fun p => uleb128 p.1 ++ encode_valtype p.2)).flatten
  let body := locals ++ (f.instructions.map encode_instruction).flatten
  uleb128 body.length ++ body

/-- Modelled from the spec: the whole module, magic and version followed
by the five sections in required order (ids 1, 2, 3, 7, 10). -/
def encode_module (m : WasmModule) : List Nat :=
  [0x00, 0x61, 0x73, 0x6D, 0x01, 0x00, 0x00, 0x00]
  ++ encode_section 1 m.types.length (m.types.map encode_functype).flatten
  ++ encode_section 2 m.imports.length (m.imports.map encode_import).flatten
  ++ encode_section 3 m.functions.length (m.functions.map uleb128).flatten
  ++ encode_section 7 m.exports.length (m.exports.map encode_export).flatten
  ++ encode_section 10 m.codes.length (m.codes.map encode_func).flatten

/-- Model of `create_shims` of shim.rs from the point where the
front-end parser has produced the syntax tree (file input and the swc
parser are out-of-scope collaborators) down to the byte sequence handed
to the output sink: extract the interfaces, pick the first one named
`"main"`, and emit its module. -/
def create_shims (module : Module) : Except String (List Nat) := do
  let interfaces ← parse_module module
  match interfaces.find? (fun i => i.name == "main") with
  | some exports => Except.ok (encode_module (generate_export_wasm_shim exports))
  | none => Except.error ("You need to declare a main module")

/-- Classifier for the one top-level item shape that `parse_module`
inspects: a statement that is a `TsModule` declaration. -/
def ModuleItem.is_ts_module_stmt : ModuleItem → Bool
  | .stmt (.decl (.tsModule _)) => true
  | _ => false

/-- Classifier mirroring the test
`if let ModuleItem::ModuleDecl(ModuleDecl::ExportDecl(e))` of
`parse_module_decl`, yielding the exported declaration. -/
def ModuleItem.as_export_decl : ModuleItem → Option Decl
  | .moduleDecl (.exportDecl d) => some d
  | _ => none

/-- Modelled from the spec: the small fixed vocabulary of recognized
primitive numeric kinds. The spec names the kinds only through its
examples, all of which use I32; the four wasm numeric value types give
the natural reading. The source code contains no such vocabulary, and
the theorems below settle how extraction actually relates to it. -/
def primitive_numeric_kinds : List String := ["I32", "I64", "F32", "F64"]

/-- Fixture: the module item of an exported function declaration with
the given name, parameters, and optional return-type annotation. -/
def exportFn (nm : String) (ps : List TsFnParam) (rt : Option TsType) : ModuleItem :=
  ModuleItem.moduleDecl (ModuleDecl.exportDecl (Decl.fn
    (FnDecl.mk nm (TsFunction.mk ps (rt.map TsTypeAnn.mk)))))

/-- Fixture: a string-named `"main"` module with the given block body. -/
def mainMod (items : List ModuleItem) : TsModuleDecl :=
  TsModuleDecl.mk (TsModuleName.str ("main")) (some (TsNamespaceBody.tsModuleBlock items))

/-- Fixture: a namespace declaration wrapped as a top-level statement. -/
def tsmodule_stmt (d : TsModuleDecl) : ModuleItem :=
  ModuleItem.stmt (Stmt.decl (Decl.tsModule d))

/-- Fixture: the return-type annotation naming the bare identifier I32. -/
def i32_ref : TsType := TsType.tsTypeRef (TsTypeRef.mk (TsEntityName.ident ("I32")) none)

/-- Fixture: the signature extraction produces for
`export function <nm>(): I32`. -/
def sigNamed (nm : String) : Signature :=
  Signature.mk nm [] [Param.mk ("result") ("I32")]

theorem exc_bind_ok {α β : Type} (a : α) (f : α → Except String β) :
    (Except.ok a >>= f) = f a := rfl

theorem exc_bind_error {α β : Type} (e : String) (f : α → Except String β) :
    ((Except.error e : Except String α) >>= f) = Except.error e := rfl

theorem chars_le_trans : ∀ {a b c : List Char},
    chars_le a b = true → chars_le b c = true → chars_le a c = true := by
  intro a
  induction a with
  | nil => intro b c _ _; simp [chars_le]
  | cons x xs ih =>
    intro b c hab hbc
    cases b with
    | nil => simp [chars_le] at hab
    | cons y ys =>
      cases c with
      | nil => simp [chars_le] at hbc
      | cons z zs =>
        simp only [chars_le] at hab hbc ⊢
        split_ifs at hab hbc ⊢ <;> try omega
        all_goals try rfl
        all_goals exact ih hab hbc

theorem chars_le_total : ∀ (a b : List Char),
    chars_le a b = true ∨ chars_le b a = true := by
  intro a
  induction a with
  | nil => intro b; left; simp [chars_le]
  | cons x xs ih =>
    intro b
    cases b with
    | nil => right; simp [chars_le]
    | cons y ys =>
      by_cases h1 : x.toNat < y.toNat
      · left; simp [chars_le, h1]
      · by_cases h2 : y.toNat < x.toNat
        · right; simp [chars_le, h2]
        · rcases ih ys with h | h
          · left; simp [chars_le, h1, h2, h]
          · right; simp [chars_le, h1, h2, h]

theorem chars_le_iff : ∀ (a b : List Char),
    chars_le a b = true ↔ (chars_lt a b = true ∨ a = b) := by
  intro a
  induction a with
  | nil =>
    intro b
    cases b with
    | nil => simp [chars_le, chars_lt]
    | cons y ys => simp [chars_le, chars_lt]
  | cons x xs ih =>
    intro b
    cases b with
    | nil => simp [chars_le, chars_lt]
    | cons y ys =>
      by_cases h1 : x.toNat < y.toNat
      · simp [chars_le, chars_lt, h1]
      · by_cases h2 : y.toNat < x.toNat
        · have hne : x ≠ y := by
            intro h; subst h; omega
          simp [chars_le, chars_lt, h1, h2, hne]
        · have hxy : x = y := by
            have hn : x.toNat = y.toNat := by omega
            have hv : x.val = y.val := by
              unfold Char.toNat at hn
              exact UInt32.toNat.inj hn
            exact Char.ext hv
          simp [chars_le, chars_lt, h1, h2, ih ys, hxy]

theorem str_le_lt_of_ne {a b : String} (hle : str_le a b = true) (hne : a ≠ b) :
    str_lt a b = true := by
  rcases (chars_le_iff a.data b.data).mp hle with h | h
  · exact h
  · exact absurd (by cases a; cases b; exact congrArg String.mk h) hne

theorem sort_by_name_perm (l : List Signature) : (sort_by_name l).Perm l :=
  List.perm_insertionSort sig_le l

theorem sort_by_name_sorted (l : List Signature) :
    List.Pairwise sig_le (sort_by_name l) :=
  @List.sorted_insertionSort Signature sig_le _
    ⟨fun a b => chars_le_total a.name.data b.name.data⟩
    ⟨fun _ _ _ hab hbc => chars_le_trans hab hbc⟩ l

theorem make_exports_length (l : List Signature) (s : Nat) :
    (make_exports l s).length = l.length := by
  induction l generalizing s with
  | nil => rfl
  | cons f rest ih => simp [make_exports, ih]

theorem make_exports_getElem (l : List Signature) (s : Nat) (k : Nat) :
    (make_exports l s)[k]? =
      l[k]?.map (fun f => WasmExport.mk f.name ExportKind.func (s + k)) := by
  induction l generalizing s k with
  | nil => simp [make_exports]
  | cons f rest ih =>
    cases k with
    | zero => simp [make_exports]
    | succ k =>
      have h : s + 1 + k = s + (k + 1) := by omega
      simp only [make_exports, List.getElem?_cons_succ, ih, h]

theorem make_exports_map_name (l : List Signature) (s : Nat) :
    (make_exports l s).map (fun e => e.name) = l.map (fun f => f.name) := by
  induction l generalizing s with
  | nil => rfl
  | cons f rest ih => simp [make_exports, ih]

theorem make_codes_length (l : List Signature) (e : Int) :
    (make_codes l e).length = l.length := by
  induction l generalizing e with
  | nil => rfl
  | cons f rest ih => simp [make_codes, ih]

theorem make_codes_getElem (l : List Signature) (e : Int) (k : Nat) :
    (make_codes l e)[k]? = l[k]?.map (fun _ => Func.mk []
      [Instruction.i32Const (e + k), Instruction.call 0, Instruction.endOp]) := by
  induction l generalizing e k with
  | nil => simp [make_codes]
  | cons f rest ih =>
    cases k with
    | zero => simp [make_codes]
    | succ k =>
      have h : e + 1 + (k : Int) = e + (((k + 1 : Nat) : Int)) := by push_cast; ring
      simp only [make_codes, List.getElem?_cons_succ, ih, h]

theorem parse_fn_signature_shape (f : FnDecl) (sig : Signature)
    (h : parse_fn_signature f = Except.ok sig) :
    ∃ s, sig = Signature.mk f.ident
      (f.function.params.map (fun _ => Param.mk ("c") ("I32")))
      [Param.mk ("result") s] := by
  unfold parse_fn_signature at h
  cases hrt : f.function.return_type with
  | none =>
    rw [hrt] at h
    simp only [context, exc_bind_error] at h
    exact Except.noConfusion h
  | some ann =>
    rw [hrt] at h
    cases htr : ann.type_ann.as_ts_type_ref with
    | none =>
      simp only [context, htr, exc_bind_ok, exc_bind_error] at h
      exact Except.noConfusion h
    | some tref =>
      cases hid : tref.type_name.as_ident with
      | none =>
        simp only [context, htr, hid, exc_bind_ok, exc_bind_error] at h
        exact Except.noConfusion h
      | some s =>
        refine ⟨s, ?_⟩
        simp only [context, htr, hid, exc_bind_ok] at h
        injection h with h'
        exact h'.symm

theorem parse_fn_signature_missing (f : FnDecl)
    (h : f.function.return_type = none) :
    parse_fn_signature f = Except.error ("Missing return type") := by
  unfold parse_fn_signature
  rw [h]
  rfl

theorem parse_fn_signature_not_ref (f : FnDecl) (ann : TsTypeAnn)
    (h : f.function.return_type = some ann)
    (h2 : ann.type_ann.as_ts_type_ref = none) :
    parse_fn_signature f = Except.error ("Illegal return type") := by
  unfold parse_fn_signature
  simp only [context, h, h2, exc_bind_ok, exc_bind_error]

theorem parse_fn_signature_qualified (f : FnDecl) (ann : TsTypeAnn) (tref : TsTypeRef)
    (h : f.function.return_type = some ann)
    (h2 : ann.type_ann.as_ts_type_ref = some tref)
    (h3 : tref.type_name.as_ident = none) :
    parse_fn_signature f = Except.error ("Illegal return type") := by
  unfold parse_fn_signature
  simp only [context, h, h2, h3, exc_bind_ok, exc_bind_error]

theorem parse_fn_signature_ok (f : FnDecl) (ann : TsTypeAnn) (tref : TsTypeRef) (s : String)
    (h : f.function.return_type = some ann)
    (h2 : ann.type_ann.as_ts_type_ref = some tref)
    (h3 : tref.type_name.as_ident = some s) :
    parse_fn_signature f = Except.ok (Signature.mk f.ident
      (f.function.params.map (fun _ => Param.mk ("c") ("I32")))
      [Param.mk ("result") s]) := by
  unfold parse_fn_signature
  simp only [context, h, h2, h3, exc_bind_ok]

theorem parse_block_items_shape : ∀ (items : List ModuleItem) (sigs : List Signature),
    parse_block_items items = Except.ok sigs →
    ∀ sig ∈ sigs, (∀ p ∈ sig.params, p.ptype = "I32") ∧
      ∃ s, sig.results = [Param.mk ("result") s] := by
  intro items
  induction items with
  | nil =>
    intro sigs h sig hsig
    injection h with h'
    subst h'
    cases hsig
  | cons x rest ih =>
    intro sigs h sig hsig
    cases x with
    | stmt s => exact Except.noConfusion h
    | moduleDecl md =>
      cases md with
      | exportDecl e =>
        simp only [parse_block_items] at h
        split at h
        case h_2 => exact ih sigs h sig hsig
        case h_1 fd he =>
          cases hfs : parse_fn_signature fd with
          | error err => rw [hfs] at h; exact Except.noConfusion h
          | ok sg =>
            rw [hfs] at h
            simp only [exc_bind_ok] at h
            cases hbr : parse_block_items rest with
            | error err => rw [hbr] at h; exact Except.noConfusion h
            | ok sgs =>
              rw [hbr] at h
              simp only [exc_bind_ok] at h
              injection h with h'
              subst h'
              rcases List.mem_cons.mp hsig with rfl | hmem
              · obtain ⟨s, rfl⟩ := parse_fn_signature_shape fd sig hfs
                constructor
                · intro p hp
                  rcases List.mem_map.mp hp with ⟨_, _, rfl⟩
                  rfl
                · exact ⟨s, rfl⟩
              · exact ih sgs hbr sig hmem
      | importDecl => exact Except.noConfusion h
      | exportNamed => exact Except.noConfusion h
      | exportDefaultDecl => exact Except.noConfusion h
      | exportDefaultExpr => exact Except.noConfusion h
      | exportAll => exact Except.noConfusion h
      | tsImportEquals => exact Except.noConfusion h
      | tsExportAssignment => exact Except.noConfusion h
      | tsNamespaceExport => exact Except.noConfusion h

theorem parse_namespace_body_shape (ob : Option TsNamespaceBody) (sigs : List Signature)
    (h : parse_namespace_body ob = Except.ok sigs) :
    ∀ sig ∈ sigs, (∀ p ∈ sig.params, p.ptype = "I32") ∧
      ∃ s, sig.results = [Param.mk ("result") s] := by
  cases ob with
  | none =>
    injection h with h'
    subst h'
    intro sig hsig
    cases hsig
  | some nb =>
    cases nb with
    | tsModuleBlock items => exact parse_block_items_shape items sigs h
    | tsNamespaceDecl =>
      injection h with h'
      subst h'
      intro sig hsig
      cases hsig

theorem parse_module_decl_shape (d : TsModuleDecl) (iface : Interface)
    (h : parse_module_decl d = Except.ok iface) :
    iface.name = "main" ∧
    ∀ sig ∈ iface.functions, (∀ p ∈ sig.params, p.ptype = "I32") ∧
      ∃ s, sig.results = [Param.mk ("result") s] := by
  unfold parse_module_decl at h
  cases hb : parse_namespace_body d.body with
  | error e => rw [hb] at h; exact Except.noConfusion h
  | ok sigs =>
    rw [hb] at h
    simp only [exc_bind_ok] at h
    injection h with h'
    subst h'
    exact ⟨rfl, parse_namespace_body_shape d.body sigs hb⟩

theorem parse_block_items_ignored : ∀ (items : List ModuleItem),
    (∀ it ∈ items, ∃ d, it.as_export_decl = some d ∧ d.as_fn_decl = none) →
    parse_block_items items = Except.ok [] := by
  intro items
  induction items with
  | nil => intro _; rfl
  | cons x rest ih =>
    intro h
    obtain ⟨d, hx, hfn⟩ := h x (by simp)
    have hrest : ∀ it ∈ rest, ∃ d, it.as_export_decl = some d ∧ d.as_fn_decl = none :=
      fun it hit => h it (by simp [hit])
    cases x with
    | stmt s => exact Option.noConfusion hx
    | moduleDecl md =>
      cases md with
      | exportDecl e =>
        have he : e = d := by
          simpa [ModuleItem.as_export_decl] using hx
        subst he
        simp only [parse_block_items]
        rw [hfn]
        exact ih hrest
      | importDecl => exact Option.noConfusion hx
      | exportNamed => exact Option.noConfusion hx
      | exportDefaultDecl => exact Option.noConfusion hx
      | exportDefaultExpr => exact Option.noConfusion hx
      | exportAll => exact Option.noConfusion hx
      | tsImportEquals => exact Option.noConfusion hx
      | tsExportAssignment => exact Option.noConfusion hx
      | tsNamespaceExport => exact Option.noConfusion hx

theorem parse_module_items_skip : ∀ (items : List ModuleItem),
    (∀ it ∈ items, it.is_ts_module_stmt = false) →
    parse_module_items items = Except.ok [] := by
  intro items
  induction items with
  | nil => intro _; rfl
  | cons x rest ih =>
    intro h
    have hx := h x (by simp)
    have hrest : ∀ it ∈ rest, it.is_ts_module_stmt = false :=
      fun it hit => h it (by simp [hit])
    cases x with
    | moduleDecl md => exact ih hrest
    | stmt s =>
      cases s with
      | block => exact ih hrest
      | empty => exact ih hrest
      | expr => exact ih hrest
      | other => exact ih hrest
      | decl d =>
        cases d with
        | tsModule m => exact Bool.noConfusion hx
        | clazz => exact ih hrest
        | fn f => exact ih hrest
        | var => exact ih hrest
        | tsInterface => exact ih hrest
        | tsTypeAlias => exact ih hrest
        | tsEnum => exact ih hrest

theorem parse_module_items_mains : ∀ (ds : List TsModuleDecl) (is : List Interface),
    List.Forall₂ (fun d i => d.id = TsModuleName.str ("main") ∧
      parse_module_decl d = Except.ok i) ds is →
    parse_module_items (ds.map tsmodule_stmt) = Except.ok is := by
  intro ds is h
  induction h with
  | nil => rfl
  | cons hdi hrest ih =>
    obtain ⟨hid, hok⟩ := hdi
    simp only [List.map_cons, tsmodule_stmt, parse_module_items]
    rw [hid]
    simp only [TsModuleName.as_str]
    rw [hok]
    simp only [exc_bind_ok]
    rw [ih]
    rfl

theorem forall2_right_names : ∀ {ds : List TsModuleDecl} {is : List Interface},
    List.Forall₂ (fun d i => d.id = TsModuleName.str ("main") ∧
      parse_module_decl d = Except.ok i) ds is →
    ∀ i ∈ is, i.name = "main" := by
  intro ds is h
  induction h with
  | nil => intro i hi; cases hi
  | cons hdi _ ih =>
    intro i hi
    rcases List.mem_cons.mp hi with rfl | hmem
    · exact (parse_module_decl_shape _ _ hdi.2).1
    · exact ih i hmem

theorem parse_module_decl_single_fn (nm : String) (ps : List TsFnParam) (rt : Option TsType) :
    parse_module_decl (mainMod [exportFn nm ps rt]) =
      (parse_fn_signature (FnDecl.mk nm (TsFunction.mk ps (rt.map TsTypeAnn.mk))) >>=
        fun sg => Except.ok (Interface.mk ("main") [sg])) := by
  cases hfs : parse_fn_signature (FnDecl.mk nm (TsFunction.mk ps (rt.map TsTypeAnn.mk))) with
  | error e =>
    unfold parse_module_decl parse_namespace_body
    simp only [mainMod, exportFn, TsModuleDecl.body, parse_block_items, Decl.as_fn_decl]
    rw [hfs]
    rfl
  | ok sg =>
    unfold parse_module_decl parse_namespace_body
    simp only [mainMod, exportFn, TsModuleDecl.body, parse_block_items, Decl.as_fn_decl]
    rw [hfs]
    rfl

/-- C1: for every interface with N declared functions the emitted Code
section holds exactly N bodies, one per declared function in original
declaration order, and the body at zero-based slot i is exactly the
three instructions push-constant i (the declaration-order position),
call import index 0, and the body terminator (the end opcode, which the
spec calls return) — independent of the functions names and of their
sorted export positions. -/
theorem C1_code_bodies (iface : Interface) :
    (generate_export_wasm_shim iface).codes.length = iface.functions.length ∧
    ∀ i : Nat, i < iface.functions.length →
      (generate_export_wasm_shim iface).codes[i]? = some (Func.mk []
        [Instruction.i32Const (i : Int), Instruction.call 0, Instruction.endOp]) := by
  constructor
  · exact make_codes_length iface.functions 0
  · intro i hi
    have h := make_codes_getElem iface.functions 0 i
    have hg : iface.functions[i]? = some (iface.functions.get ⟨i, hi⟩) := by
      simp [List.getElem?_eq_getElem hi]
    show (make_codes iface.functions 0)[i]? = _
    rw [h, hg]
    simp

/-- C1 witness: on an interface declaring zeta then alpha, the body at
slot 0 pushes constant 0, calls import 0, and terminates. -/
theorem C1_code_bodies_witness :
    (generate_export_wasm_shim (Interface.mk ("main")
        [sigNamed ("zeta"), sigNamed ("alpha")])).codes[0]? =
      some (Func.mk [] [Instruction.i32Const ((0 : Nat) : Int),
        Instruction.call 0, Instruction.endOp]) :=
  (C1_code_bodies (Interface.mk ("main") [sigNamed ("zeta"), sigNamed ("alpha")])).2
    0 (by decide)

/-- C2: the emitted Export section holds exactly N entries, its names
are in ascending byte/codepoint order, and the entry at sorted position
k is the k-th name-sorted signature bound to function index k + 1
(index 0 being reserved for the import). -/
theorem C2_export_entries (iface : Interface) :
    (generate_export_wasm_shim iface).exports.length = iface.functions.length ∧
    List.Pairwise (fun a b => str_le a b = true)
      ((generate_export_wasm_shim iface).exports.map (fun e => e.name)) ∧
    ∀ k : Nat, (generate_export_wasm_shim iface).exports[k]? =
      (sort_by_name iface.functions)[k]?.map
        (fun f => WasmExport.mk f.name ExportKind.func (k + 1)) := by
  refine ⟨?_, ?_, ?_⟩
  · show (make_exports (sort_by_name iface.functions) 1).length = _
    rw [make_exports_length]
    exact (sort_by_name_perm iface.functions).length_eq
  · show List.Pairwise _ ((make_exports (sort_by_name iface.functions) 1).map (fun e => e.name))
    rw [make_exports_map_name]
    exact List.pairwise_map.mpr (sort_by_name_sorted iface.functions)
  · intro k
    show (make_exports (sort_by_name iface.functions) 1)[k]? = _
    rw [make_exports_getElem]
    have h : 1 + k = k + 1 := by omega
    rw [h]

/-- C3 counterexample: a top-level body holding a variable declaration,
an expression statement, and an import — none of them a namespace
declaration — is accepted with no error: every such statement is
silently skipped and extraction returns the empty interface list. -/
theorem C3_counterexample :
    parse_module (Module.mk [ModuleItem.stmt (Stmt.decl Decl.var),
      ModuleItem.stmt Stmt.expr, ModuleItem.moduleDecl ModuleDecl.importDecl]) =
    Except.ok [] := rfl

/-- C3 (amended): a top-level statement that is not a TsModule
declaration is silently skipped rather than rejected: extraction on any
body containing no TsModule declaration statement succeeds and returns
the empty interface list, raising no error for the other statements. -/
theorem C3_amended_silent_skip (m : Module)
    (h : ∀ it ∈ m.body, it.is_ts_module_stmt = false) :
    parse_module m = Except.ok [] :=
  parse_module_items_skip m.body h

/-- C3 amended witness: a body holding only a variable declaration is
accepted and extracts to the empty interface list. -/
theorem C3_amended_silent_skip_witness :
    parse_module (Module.mk [ModuleItem.stmt (Stmt.decl Decl.var)]) = Except.ok [] :=
  C3_amended_silent_skip (Module.mk [ModuleItem.stmt (Stmt.decl Decl.var)]) (by decide)

/-- C4 counterexample: an exported non-function declaration (an exported
constant) inside the main namespace does not make extraction fail — it
is silently ignored and the empty Interface is returned. -/
theorem C4_counterexample :
    parse_module_decl (mainMod [ModuleItem.moduleDecl (ModuleDecl.exportDecl Decl.var)]) =
    Except.ok (Interface.mk ("main") []) := rfl

/-- C4 (amended): inside the main namespace, an export declaration whose
payload is not a function declaration is silently ignored, contributing
no signature and no error, while an item that is not an export
declaration at all is rejected with an error. -/
theorem C4_amended :
    (∀ items : List ModuleItem,
      (∀ it ∈ items, ∃ d, it.as_export_decl = some d ∧ d.as_fn_decl = none) →
      parse_module_decl (mainMod items) = Except.ok (Interface.mk ("main") [])) ∧
    (∀ (it : ModuleItem) (rest : List ModuleItem), it.as_export_decl = none →
      parse_block_items (it :: rest) =
        Except.error ("Do not know what to do with non export on main module")) := by
  constructor
  · intro items h
    have hb := parse_block_items_ignored items h
    unfold parse_module_decl parse_namespace_body
    simp only [mainMod, TsModuleDecl.body]
    rw [hb]
    rfl
  · intro it rest hit
    cases it with
    | stmt s => rfl
    | moduleDecl md =>
      cases md with
      | exportDecl e => exact Option.noConfusion hit
      | importDecl => rfl
      | exportNamed => rfl
      | exportDefaultDecl => rfl
      | exportDefaultExpr => rfl
      | exportAll => rfl
      | tsImportEquals => rfl
      | tsExportAssignment => rfl
      | tsNamespaceExport => rfl

/-- C4 amended witness: an exported type alias inside main is silently
ignored, while a bare expression statement inside main is rejected. -/
theorem C4_amended_witness :
    parse_module_decl (mainMod [ModuleItem.moduleDecl (ModuleDecl.exportDecl Decl.tsTypeAlias)]) =
      Except.ok (Interface.mk ("main") []) ∧
    parse_block_items [ModuleItem.stmt Stmt.expr] =
      Except.error ("Do not know what to do with non export on main module") :=
  ⟨C4_amended.1 [ModuleItem.moduleDecl (ModuleDecl.exportDecl Decl.tsTypeAlias)]
      (fun it hit => by
        rcases List.mem_singleton.mp hit with rfl
        exact ⟨Decl.tsTypeAlias, rfl, rfl⟩),
   C4_amended.2 (ModuleItem.stmt Stmt.expr) [] rfl⟩

/-- C5 counterexample: a return-type annotation that is a generic
instantiation — a type reference carrying type arguments whose head is
the bare identifier Foo — is not rejected with an illegal-return-type
error; it is accepted and the result type is Foo. -/
theorem C5_counterexample :
    parse_module_decl (mainMod [exportFn ("process") []
      (some (TsType.tsTypeRef (TsTypeRef.mk (TsEntityName.ident ("Foo")) (some ()))))]) =
    Except.ok (Interface.mk ("main")
      [Signature.mk ("process") [] [Param.mk ("result") ("Foo")]]) := rfl

/-- C5 (amended): a missing return-type annotation fails with the
missing-return-type error; an annotation that is not a type reference,
or a type reference whose name is qualified rather than a bare
identifier, fails with the illegal-return-type error; a type reference
headed by a bare identifier is accepted with that identifier as the
result type — even when the reference carries generic type arguments. -/
theorem C5_amended (nm : String) (ps : List TsFnParam) :
    (parse_module_decl (mainMod [exportFn nm ps none]) =
      Except.error ("Missing return type")) ∧
    (∀ t : TsType, t.as_ts_type_ref = none →
      parse_module_decl (mainMod [exportFn nm ps (some t)]) =
        Except.error ("Illegal return type")) ∧
    (∀ (en : TsEntityName) (tps : Option Unit), en.as_ident = none →
      parse_module_decl (mainMod [exportFn nm ps
        (some (TsType.tsTypeRef (TsTypeRef.mk en tps)))]) =
        Except.error ("Illegal return type")) ∧
    (∀ (s : String) (tps : Option Unit),
      parse_module_decl (mainMod [exportFn nm ps
        (some (TsType.tsTypeRef (TsTypeRef.mk (TsEntityName.ident s) tps)))]) =
        Except.ok (Interface.mk ("main") [Signature.mk nm
          (ps.map (fun _ => Param.mk ("c") ("I32"))) [Param.mk ("result") s]])) := by
  refine ⟨?_, ?_, ?_, ?_⟩
  · rw [parse_module_decl_single_fn]
    rw [parse_fn_signature_missing _ rfl]
    rfl
  · intro t ht
    rw [parse_module_decl_single_fn]
    rw [parse_fn_signature_not_ref _ (TsTypeAnn.mk t) rfl ht]
    rfl
  · intro en tps hen
    rw [parse_module_decl_single_fn]
    rw [parse_fn_signature_qualified _ (TsTypeAnn.mk (TsType.tsTypeRef (TsTypeRef.mk en tps)))
      (TsTypeRef.mk en tps) rfl rfl hen]
    rfl
  · intro s tps
    rw [parse_module_decl_single_fn]
    rw [parse_fn_signature_ok _ (TsTypeAnn.mk (TsType.tsTypeRef (TsTypeRef.mk (TsEntityName.ident s) tps)))
      (TsTypeRef.mk (TsEntityName.ident s) tps) s rfl rfl rfl]
    rfl

/-- C5 amended witness: for a function named f with no parameters — no
annotation gives the missing-return-type error; a structural type
literal and a qualified name A.B give the illegal-return-type error; and
the generic reference Foo of one type argument is accepted with result
type Foo. -/
theorem C5_amended_witness :
    parse_module_decl (mainMod [exportFn ("f") [] none]) =
      Except.error ("Missing return type") ∧
    parse_module_decl (mainMod [exportFn ("f") [] (some TsType.tsTypeLit)]) =
      Except.error ("Illegal return type") ∧
    parse_module_decl (mainMod [exportFn ("f") [] (some (TsType.tsTypeRef (TsTypeRef.mk
        (TsEntityName.tsQualifiedName (TsEntityName.ident ("A")) ("B")) none)))]) =
      Except.error ("Illegal return type") ∧
    parse_module_decl (mainMod [exportFn ("f") [] (some (TsType.tsTypeRef (TsTypeRef.mk
        (TsEntityName.ident ("Foo")) (some ()))))]) =
      Except.ok (Interface.mk ("main") [Signature.mk ("f") [] [Param.mk ("result") ("Foo")]]) :=
  ⟨(C5_amended ("f") []).1,
   (C5_amended ("f") []).2.1 TsType.tsTypeLit rfl,
   (C5_amended ("f") []).2.2.1 (TsEntityName.tsQualifiedName (TsEntityName.ident ("A")) ("B")) none rfl,
   (C5_amended ("f") []).2.2.2 ("Foo") (some ())⟩

/-- C6 counterexample: a declared return type Banana, outside any
vocabulary of primitive numeric kinds, does not make extraction fail —
the Interface is returned with a result Param whose type is Banana. -/
theorem C6_counterexample :
    parse_module_decl (mainMod [exportFn ("f") []
      (some (TsType.tsTypeRef (TsTypeRef.mk (TsEntityName.ident ("Banana")) none)))]) =
      Except.ok (Interface.mk ("main")
        [Signature.mk ("f") [] [Param.mk ("result") ("Banana")]]) ∧
    ("Banana" ∈ primitive_numeric_kinds) = False := by
  refine ⟨rfl, ?_⟩
  simp [primitive_numeric_kinds]

/-- C6 (amended): extraction never checks declared types against a
vocabulary; instead, whenever extraction succeeds, every parameter of
every extracted signature carries exactly the fixed placeholder type
I32, and every result list is a single entry named result holding the
declared identifier verbatim, whatever string it is. -/
theorem C6_amended (d : TsModuleDecl) (iface : Interface)
    (h : parse_module_decl d = Except.ok iface) :
    ∀ sig ∈ iface.functions,
      (∀ p ∈ sig.params, p.ptype = "I32") ∧
      ∃ s, sig.results = [Param.mk ("result") s] :=
  (parse_module_decl_shape d iface h).2

/-- C6 amended witness: the single parameter extracted for a one-argument
function carries the placeholder type I32. -/
theorem C6_amended_witness :
    (Param.mk ("c") ("I32")).ptype = "I32" :=
  ((C6_amended (mainMod [exportFn ("f") [TsFnParam.mk ("a")] (some i32_ref)])
      (Interface.mk ("main") [Signature.mk ("f") [Param.mk ("c") ("I32")]
        [Param.mk ("result") ("I32")]])
      rfl)
    (Signature.mk ("f") [Param.mk ("c") ("I32")] [Param.mk ("result") ("I32")])
    (List.mem_singleton.mpr rfl)).1
    (Param.mk ("c") ("I32")) (List.mem_singleton.mpr rfl)

/-- C7 counterexample: an accepted input declaring the name f twice is
extracted without error, and the emitted Export section repeats the
name f — its entries are neither pairwise distinct nor strictly
ascending. -/
theorem C7_counterexample :
    parse_module (Module.mk [tsmodule_stmt (mainMod [exportFn ("f") [] (some i32_ref),
      exportFn ("f") [] (some i32_ref)])]) =
      Except.ok [Interface.mk ("main") [sigNamed ("f"), sigNamed ("f")]] ∧
    (generate_export_wasm_shim (Interface.mk ("main")
      [sigNamed ("f"), sigNamed ("f")])).exports.map (fun e => e.name) = ["f", "f"] ∧
    ¬ ((generate_export_wasm_shim (Interface.mk ("main")
      [sigNamed ("f"), sigNamed ("f")])).exports.map (fun e => e.name)).Nodup := by
  refine ⟨rfl, rfl, ?_⟩
  decide

/-- C7 (amended): the Function, Code and Export sections each hold
exactly one entry per declared function, and when the declared names are
pairwise distinct the export names are pairwise distinct and strictly
ascending in byte/codepoint order; with duplicate declared names the
Export section instead repeats the duplicated name. -/
theorem C7_amended (iface : Interface)
    (h : (iface.functions.map (fun f => f.name)).Nodup) :
    (generate_export_wasm_shim iface).functions.length = iface.functions.length ∧
    (generate_export_wasm_shim iface).codes.length = iface.functions.length ∧
    (generate_export_wasm_shim iface).exports.length = iface.functions.length ∧
    ((generate_export_wasm_shim iface).exports.map (fun e => e.name)).Nodup ∧
    List.Pairwise (fun a b => str_lt a b = true)
      ((generate_export_wasm_shim iface).exports.map (fun e => e.name)) := by
  have hnames : (generate_export_wasm_shim iface).exports.map (fun e => e.name) =
      (sort_by_name iface.functions).map (fun f => f.name) :=
    make_exports_map_name (sort_by_name iface.functions) 1
  have hperm : ((sort_by_name iface.functions).map (fun f => f.name)).Perm
      (iface.functions.map (fun f => f.name)) :=
    (sort_by_name_perm iface.functions).map (fun f => f.name)
  have hnodup : ((sort_by_name iface.functions).map (fun f => f.name)).Nodup :=
    hperm.nodup_iff.mpr h
  have hsorted : List.Pairwise (fun a b => str_le a b = true)
      ((sort_by_name iface.functions).map (fun f => f.name)) :=
    List.pairwise_map.mpr (sort_by_name_sorted iface.functions)
  refine ⟨?_, ?_, ?_, ?_, ?_⟩
  · show (iface.functions.map (fun _ => (1 : Nat))).length = _
    simp
  · exact make_codes_length iface.functions 0
  · show (make_exports (sort_by_name iface.functions) 1).length = _
    rw [make_exports_length]
    exact (sort_by_name_perm iface.functions).length_eq
  · rw [hnames]
    exact hnodup
  · rw [hnames]
    exact (hsorted.and hnodup).imp (fun hab => str_le_lt_of_ne hab.1 hab.2)

/-- C7 amended witness: with declared names zeta and alpha (distinct),
the Export section holds exactly two entries. -/
theorem C7_amended_witness :
    (generate_export_wasm_shim (Interface.mk ("main")
      [sigNamed ("zeta"), sigNamed ("alpha")])).exports.length = 2 :=
  (C7_amended (Interface.mk ("main") [sigNamed ("zeta"), sigNamed ("alpha")])
    (by decide)).2.2.1

/-- C8: an accepted interface declaring zero functions still emits a
module: the Function, Export and Code sections are empty while the
Import section holds exactly the dispatch import coremod.__invoke bound
to type 0, and the Type section still declares the two function types. -/
theorem C8_empty_main (iface : Interface) (h : iface.functions = []) :
    (generate_export_wasm_shim iface).functions = [] ∧
    (generate_export_wasm_shim iface).exports = [] ∧
    (generate_export_wasm_shim iface).codes = [] ∧
    (generate_export_wasm_shim iface).imports = [WasmImport.mk ("coremod") ("__invoke") 0] ∧
    (generate_export_wasm_shim iface).types =
      [FuncType.mk [ValType.i32] [ValType.i32], FuncType.mk [] [ValType.i32]] := by
  rcases iface with ⟨nm, fns⟩
  simp only at h
  subst h
  exact ⟨rfl, rfl, rfl, rfl, rfl⟩

/-- C8 witness: the interface extracted from an empty main namespace
emits empty Function, Export and Code sections and the one import. -/
theorem C8_empty_main_witness :
    (generate_export_wasm_shim (Interface.mk ("main") [])).exports = [] ∧
    (generate_export_wasm_shim (Interface.mk ("main") [])).imports =
      [WasmImport.mk ("coremod") ("__invoke") 0] :=
  ⟨(C8_empty_main (Interface.mk ("main") []) rfl).2.1,
   (C8_empty_main (Interface.mk ("main") []) rfl).2.2.2.1⟩

/-- C9: extraction followed by emission is deterministic — two runs of
the embedded pipeline on the same parsed source tree produce the same
output module bytes. -/
theorem C9_deterministic (module : Module) :
    create_shims module = create_shims module := rfl

/-- C10: with more than one namespace declaration named main in the
top-level body, extraction does not fail: it returns one Interface per
such namespace, each named main, in source order, and the pipeline
emits the module from the first one only, so every later main
namespace is absent from the output. -/
theorem C10_first_main_wins (d1 : TsModuleDecl) (ds : List TsModuleDecl)
    (i1 : Interface) (is : List Interface)
    (_hne : ds ≠ [])
    (h1 : d1.id = TsModuleName.str ("main"))
    (h2 : parse_module_decl d1 = Except.ok i1)
    (h3 : List.Forall₂ (fun d i => d.id = TsModuleName.str ("main") ∧
      parse_module_decl d = Except.ok i) ds is) :
    parse_module (Module.mk ((d1 :: ds).map tsmodule_stmt)) = Except.ok (i1 :: is) ∧
    (∀ i ∈ i1 :: is, i.name = "main") ∧
    create_shims (Module.mk ((d1 :: ds).map tsmodule_stmt)) =
      Except.ok (encode_module (generate_export_wasm_shim i1)) := by
  have hp : parse_module (Module.mk ((d1 :: ds).map tsmodule_stmt)) = Except.ok (i1 :: is) :=
    parse_module_items_mains (d1 :: ds) (i1 :: is) (List.Forall₂.cons ⟨h1, h2⟩ h3)
  have hname : i1.name = "main" := (parse_module_decl_shape d1 i1 h2).1
  refine ⟨hp, ?_, ?_⟩
  · intro i hi
    rcases List.mem_cons.mp hi with rfl | hmem
    · exact hname
    · exact forall2_right_names h3 i hmem
  · unfold create_shims
    rw [hp]
    simp only [exc_bind_ok]
    rw [List.find?_cons_of_pos _ (by simp [hname])]

/-- C10 witness: two empty main namespaces parse to two Interfaces and
the emitted module is that of the first. -/
theorem C10_first_main_wins_witness :
    parse_module (Module.mk ([mainMod [], mainMod []].map tsmodule_stmt)) =
      Except.ok [Interface.mk ("main") [], Interface.mk ("main") []] ∧
    create_shims (Module.mk ([mainMod [], mainMod []].map tsmodule_stmt)) =
      Except.ok (encode_module (generate_export_wasm_shim (Interface.mk ("main") []))) :=
  ⟨(C10_first_main_wins (mainMod []) [mainMod []] (Interface.mk ("main") [])
      [Interface.mk ("main") []] (by simp) rfl rfl
      (List.Forall₂.cons ⟨rfl, rfl⟩ List.Forall₂.nil)).1,
   (C10_first_main_wins (mainMod []) [mainMod []] (Interface.mk ("main") [])
      [Interface.mk ("main") []] (by simp) rfl rfl
      (List.Forall₂.cons ⟨rfl, rfl⟩ List.Forall₂.nil)).2.2⟩

end Shim
